import Mathlib

/-!
# Verification of the `atonixsdk` Go client (`sdk/go/atonixsdk/client.go`)

The client is a thin layer over four collaborators of the Go standard library:
`encoding/json` (payload serialization), `net/http.NewRequest` (request
construction), `(*http.Client).Do` (the network exchange) and `io.ReadAll`
(reading the response body).

* Go `string` and `[]byte` values are byte sequences, `List UInt8`.
* `json.Marshal` is modelled on a fragment of Go values (`GoValue`) that covers
  every payload the client builds: strings, maps with string keys, slices,
  booleans, integers, nil values and values of a type the encoder rejects.
* The checks `http.NewRequest` performs on the method and the URL, and the
  behaviour of the network, belong to the environment `Env`.
* `World` records the effects of a call: the requests handed to
  `(*http.Client).Do`, in order, and the number of response bodies closed.
-/

namespace Atonixsdk

/-! ## Byte strings -/

/-- A Go `string`: an immutable sequence of bytes. -/
abbrev GoString := List UInt8

/-- A Go `[]byte` that is not nil. -/
abbrev Bytes := List UInt8

/-- UTF-8 encoding of one code point, as the Go compiler encodes the characters
of a string literal. -/
def utf8Encode (c : Char) : List UInt8 :=
  let n := c.toNat
  if n < 0x80 then [UInt8.ofNat n]
  else if n < 0x800 then [UInt8.ofNat (0xC0 + n / 64), UInt8.ofNat (0x80 + n % 64)]
  else if n < 0x10000 then
    [UInt8.ofNat (0xE0 + n / 4096), UInt8.ofNat (0x80 + n / 64 % 64), UInt8.ofNat (0x80 + n % 64)]
  else
    [UInt8.ofNat (0xF0 + n / 262144), UInt8.ofNat (0x80 + n / 4096 % 64),
     UInt8.ofNat (0x80 + n / 64 % 64), UInt8.ofNat (0x80 + n % 64)]

/-- The bytes of a Go string literal. -/
def goStr (s : String) : GoString := s.data.flatMap utf8Encode

/-! ## Errors -/

/-- Go `error` values that can reach the caller of the client. -/
inductive GoError where
  /-- The value `fmt.Errorf` builds from a format without `%w`: its message. -/
  | errorString (msg : GoString)
  /-- `*json.UnsupportedTypeError`: the encoder met a value of this type. -/
  | unsupportedType (typeName : GoString)
  /-- An error value made by `net/http`, `net/url`, `io` or the network stack,
  told apart by an identity and carrying its message. -/
  | foreign (id : Nat) (msg : GoString)
  deriving DecidableEq, Repr

/-- The `Error()` method: the message of an error value. -/
def GoError.Error : GoError → GoString
  | .errorString msg => msg
  | .unsupportedType typeName => goStr "json: unsupported type: " ++ typeName
  | .foreign _ msg => msg

/-! ## `encoding/json` -/

/-- The Go values `json.Marshal` is modelled on. A Go map has distinct keys; it
is listed here in any order. -/
inductive GoValue where
  /-- A nil pointer, nil map, nil slice or nil interface held in a value. -/
  | null
  | bool (b : Bool)
  /-- A value of an integer type. -/
  | int (i : Int)
  | str (s : GoString)
  /-- A non-nil slice. -/
  | slice (xs : List GoValue)
  /-- A non-nil map with string keys (`map[string]string`, `map[string]any`). -/
  | map (m : List (GoString × GoValue))
  /-- A value whose type the encoder rejects (a channel, a function, a complex
  number), with the name of that type. -/
  | unsupported (typeName : GoString)

/-- The table `hex` of `encoding/json`: the digit of a nibble. -/
def hexDigit (n : Nat) : UInt8 := (goStr "0123456789abcdef").getD n 0

/-- The table `htmlSafeSet` of `encoding/json`, for a byte below 0x80: the byte
is copied as it is. Control characters, the double quote, the backslash and the
characters `<`, `>`, `&` are not in the set. -/
def htmlSafeSet (b : UInt8) : Bool :=
  0x20 ≤ b && b != 0x22 && b != 0x26 && b != 0x3C && b != 0x3E && b != 0x5C

/-- The escape `appendString` writes for a byte below 0x80 outside
`htmlSafeSet` (Go 1.22 and later; before, backspace and form feed were written
as `\u0008` and `\u000c`). -/
def escapeASCII (b : UInt8) : Bytes :=
  if b = 0x5C ∨ b = 0x22 then [0x5C, b]
  else if b = 0x08 then goStr "\\b"
  else if b = 0x0C then goStr "\\f"
  else if b = 0x0A then goStr "\\n"
  else if b = 0x0D then goStr "\\r"
  else if b = 0x09 then goStr "\\t"
  else goStr "\\u00" ++ [hexDigit (b.toNat / 16), hexDigit (b.toNat % 16)]

/-- The code point `utf8.RuneError`. -/
def RuneError : Nat := 0xFFFD

/-- The table `first` of `unicode/utf8`: information on the first byte of a
UTF-8 sequence (size in the low bits, index of the accept range above). -/
def utf8First (b : UInt8) : Nat :=
  if b < 0x80 then 0xF0
  else if b < 0xC2 then 0xF1
  else if b < 0xE0 then 0x02
  else if b = 0xE0 then 0x13
  else if b < 0xED then 0x03
  else if b = 0xED then 0x23
  else if b < 0xF0 then 0x03
  else if b = 0xF0 then 0x34
  else if b < 0xF4 then 0x04
  else if b = 0xF4 then 0x44
  else 0xF1

/-- The table `acceptRanges` of `unicode/utf8`: bounds on the second byte. -/
def acceptRange (i : Nat) : UInt8 × UInt8 :=
  match i with
  | 0 => (0x80, 0xBF)
  | 1 => (0xA0, 0xBF)
  | 2 => (0x80, 0x9F)
  | 3 => (0x90, 0xBF)
  | 4 => (0x80, 0x8F)
  | _ => (0, 0)

/-- Whether a byte is outside the continuation range 0x80..0xBF. -/
def notContinuation (b : UInt8) : Bool := b < 0x80 || 0xBF < b

/-- The function `utf8.DecodeRuneInString`: the first code point of a byte
string and its width; `(RuneError, 1)` for an invalid encoding. -/
def DecodeRuneInString (s : GoString) : Nat × Nat :=
  match s with
  | [] => (RuneError, 0)
  | s0 :: t0 =>
    let x := utf8First s0
    if x ≥ 0xF0 then
      (if x % 2 = 1 then RuneError else s0.toNat, 1)
    else
      let sz := x % 8
      let accept := acceptRange (x / 16)
      if s.length < sz then (RuneError, 1)
      else
        match t0 with
        | [] => (RuneError, 1)
        | s1 :: t1 =>
          if s1 < accept.1 || accept.2 < s1 then (RuneError, 1)
          else if sz ≤ 2 then (s0.toNat % 32 * 64 + s1.toNat % 64, 2)
          else
            match t1 with
            | [] => (RuneError, 1)
            | s2 :: t2 =>
              if notContinuation s2 then (RuneError, 1)
              else if sz ≤ 3 then
                (s0.toNat % 16 * 4096 + s1.toNat % 64 * 64 + s2.toNat % 64, 3)
              else
                match t2 with
                | [] => (RuneError, 1)
                | s3 :: _ =>
                  if notContinuation s3 then (RuneError, 1)
                  else
                    (s0.toNat % 8 * 262144 + s1.toNat % 64 * 4096 + s2.toNat % 64 * 64
                      + s3.toNat % 64, 4)

/-- The loop of `appendString` with HTML escaping on (what `json.Marshal` uses).
`skip` counts the bytes left of a code point already decoded, which are kept
when `keep` holds (a code point copied as it is) and dropped otherwise (U+2028
and U+2029, written as escapes). -/
def appendStringLoop : Nat → Bool → GoString → Bytes
  | _, _, [] => []
  | skip + 1, keep, b :: rest =>
    (if keep then [b] else []) ++ appendStringLoop skip keep rest
  | 0, _, b :: rest =>
    if b < 0x80 then
      (if htmlSafeSet b then [b] else escapeASCII b) ++ appendStringLoop 0 true rest
    else
      let r := DecodeRuneInString ((b :: rest).take 4)
      if r.1 = RuneError ∧ r.2 = 1 then
        goStr "\\ufffd" ++ appendStringLoop 0 true rest
      else if r.1 = 0x2028 ∨ r.1 = 0x2029 then
        goStr "\\u202" ++ [hexDigit (r.1 % 16)] ++ appendStringLoop (r.2 - 1) false rest
      else
        b :: appendStringLoop (r.2 - 1) true rest

/-- The function `appendString` of `encoding/json`: a Go string as a JSON string
literal. -/
def appendString (src : GoString) : Bytes :=
  goStr "\"" ++ appendStringLoop 0 true src ++ goStr "\""

/-- Whether `strings.Compare a b ≤ 0`: byte-wise lexicographic order. -/
def stringsLE : GoString → GoString → Bool
  | [], _ => true
  | _ :: _, [] => false
  | a :: as, b :: bs => if a < b then true else if b < a then false else stringsLE as bs

/-- Insertion of one map entry into entries sorted by key. -/
def insertByKey {α : Type} (e : GoString × α) : List (GoString × α) → List (GoString × α)
  | [] => [e]
  | x :: xs => if stringsLE e.1 x.1 then e :: x :: xs else x :: insertByKey e xs

/-- The entries of a map sorted by key, the order in which the encoder writes
them. -/
def sortByKey {α : Type} : List (GoString × α) → List (GoString × α)
  | [] => []
  | e :: es => insertByKey e (sortByKey es)

/-- The encoded items of a slice or map separated by commas. -/
def joinComma : List Bytes → Bytes
  | [] => []
  | [x] => x
  | x :: y :: rest => x ++ goStr "," ++ joinComma (y :: rest)

/-- The entries of a map written in the given order; the first entry whose value
cannot be encoded aborts with its error. -/
def writeFields : List (GoString × Except GoError Bytes) → Except GoError (List Bytes)
  | [] => .ok []
  | (_, .error err) :: _ => .error err
  | (k, .ok v) :: rest =>
    match writeFields rest with
    | .error err => .error err
    | .ok out => .ok ((appendString k ++ goStr ":" ++ v) :: out)

mutual
/-- The encoder of `encoding/json` on one value. -/
def encodeValue : GoValue → Except GoError Bytes
  | .null => .ok (goStr "null")
  | .bool b => .ok (if b then goStr "true" else goStr "false")
  | .int i => .ok (goStr (toString i))
  | .str s => .ok (appendString s)
  | .slice xs =>
    match encodeElems xs with
    | .error err => .error err
    | .ok out => .ok (goStr "[" ++ joinComma out ++ goStr "]")
  | .map m =>
    match writeFields (sortByKey (encodeFields m)) with
    | .error err => .error err
    | .ok out => .ok (goStr "\x7b" ++ joinComma out ++ goStr "\x7d")
  | .unsupported typeName => .error (.unsupportedType typeName)
/-- The elements of a slice encoded in order. -/
def encodeElems : List GoValue → Except GoError (List Bytes)
  | [] => .ok []
  | x :: xs =>
    match encodeValue x with
    | .error err => .error err
    | .ok v =>
      match encodeElems xs with
      | .error err => .error err
      | .ok out => .ok (v :: out)
/-- The value of every map entry encoded, next to its key. -/
def encodeFields : List (GoString × GoValue) → List (GoString × Except GoError Bytes)
  | [] => []
  | (k, v) :: rest => (k, encodeValue v) :: encodeFields rest
end

/-- The function `json.Marshal`: the JSON text of a value, or the error of the
encoder. -/
def json.Marshal (v : GoValue) : Except GoError Bytes := encodeValue v

/-! ## `net/http` and `io` -/

/-- A Go `http.Header`: the values stored under each key. -/
abbrev Header := List (GoString × List GoString)

/-- The method `Header.Set`: the values of the key become the one value given.
The two keys the client sets are already in canonical form. -/
def Header.Set (h : Header) (key value : GoString) : Header :=
  match h with
  | [] => [(key, [value])]
  | (k, vs) :: rest => if k = key then (key, [value]) :: rest else (k, vs) :: Header.Set rest key value

/-- The method `Header.Values`: all values stored under a key. -/
def Header.Values (h : Header) (key : GoString) : List GoString :=
  match h with
  | [] => []
  | (k, vs) :: rest => if k = key then vs else Header.Values rest key

/-- The method `Header.Get`: the first value stored under a key, or the empty
string. -/
def Header.Get (h : Header) (key : GoString) : GoString :=
  (Header.Values h key).headD []

/-- The parts of a Go `*http.Request` the client decides. `URL` is the text
given to `http.NewRequest`; `Body` is what the body reader yields, `none` for a
request built with a nil reader. -/
structure Request where
  Method : GoString
  URL : GoString
  Header : Header
  Body : Option Bytes
  deriving DecidableEq, Repr

/-- The parts of a Go `*http.Response` the client reads: the status code and the
outcome `(data, err)` of `io.ReadAll` on the body. -/
structure Response where
  StatusCode : Int
  Body : Bytes × Option GoError
  deriving DecidableEq, Repr

/-- What the client does not decide. `newRequestError method url` is the error
`http.NewRequest` reports for a method and a URL it rejects. `roundTrip sent req`
is the outcome of `(*http.Client).Do` on `req` when `sent` are the requests
handed over before. -/
structure Env where
  newRequestError : GoString → GoString → Option GoError
  roundTrip : List Request → Request → Except GoError Response

/-- The effects of calls so far: the requests handed to `(*http.Client).Do`,
oldest first, and the number of response bodies closed. -/
structure World where
  sent : List Request
  closedBodies : Nat
  deriving DecidableEq, Repr

/-- The constant `http.MethodGet`. -/
def http.MethodGet : GoString := goStr "GET"

/-- The constant `http.MethodPost`. -/
def http.MethodPost : GoString := goStr "POST"

/-- The function `http.NewRequest`: an empty method stands for GET; a method or
URL the library rejects gives its error; the request starts with an empty
header. -/
def http.NewRequest (env : Env) (method url : GoString) (body : Option Bytes) :
    Except GoError Request :=
  let method := if method = [] then http.MethodGet else method
  match env.newRequestError method url with
  | some err => .error err
  | none => .ok { Method := method, URL := url, Header := [], Body := body }

/-- A Go `http.Client`: its `Timeout` in nanoseconds. -/
structure HttpClient where
  Timeout : Int
  deriving DecidableEq, Repr

/-- The method `(*http.Client).Do`: the request is handed to the network, which
answers with a response or an error. -/
def HttpClient.Do (env : Env) (_hc : HttpClient) (req : Request) (w : World) :
    Except GoError Response × World :=
  (env.roundTrip w.sent req, { w with sent := w.sent ++ [req] })

/-- The method `Close` of a response body. -/
def Response.closeBody (_res : Response) (w : World) : World :=
  { w with closedBodies := w.closedBodies + 1 }

/-- The function `io.ReadAll` on a response body. -/
def io.ReadAll (res : Response) : Bytes × Option GoError := res.Body

/-- The call `fmt.Errorf(format + "%s", arg)` for a format text without verbs
and a string operand: the verb `%s` writes the bytes of the operand as they
are. -/
def fmt.Errorf (format : GoString) (arg : GoString) : GoError :=
  .errorString (format ++ arg)

/-! ## The client -/

/-- The struct `Client`. -/
structure Client where
  BaseURL : GoString
  Token : GoString
  http : HttpClient
  deriving DecidableEq, Repr

/-- The constant `time.Second`, a `time.Duration` in nanoseconds. -/
def time.Second : Int := 1000000000

/-- The function `NewClient`. -/
def NewClient (baseURL token : GoString) : Client :=
  { BaseURL := baseURL, Token := token, http := { Timeout := 30 * time.Second } }

/-- What a call returns, the Go pair `([]byte, error)`: `none` is nil. -/
abbrev Result := Option Bytes × Option GoError

/-- The first block of `do`: the body reader, nil for a nil payload, else over
the bytes `json.Marshal` gives. -/
def marshalPayload (payload : Option GoValue) : Except GoError (Option Bytes) :=
  match payload with
  | none => .ok none
  | some p =>
    match json.Marshal p with
    | .error err => .error err
    | .ok b => .ok (some b)

/-- The method `Client.do`, written `do'` since `do` is a reserved word. The
world `w` goes in and comes out next to the returned pair. -/
def Client.do' (env : Env) (c : Client) (method path : GoString) (payload : Option GoValue)
    (w : World) : Result × World :=
  match marshalPayload payload with
  | .error err => ((none, some err), w)
  | .ok body =>
    match http.NewRequest env method (c.BaseURL ++ path) body with
    | .error err => ((none, some err), w)
    | .ok req =>
      let req := { req with Header := Header.Set req.Header (goStr "Content-Type") (goStr "application/json") }
      let req := { req with Header := Header.Set req.Header (goStr "Authorization") (goStr "Token " ++ c.Token) }
      match HttpClient.Do env c.http req w with
      | (.error err, w) => ((none, some err), w)
      | (.ok res, w) =>
        -- `defer res.Body.Close()`: the body is closed at each return below
        match io.ReadAll res with
        | (_, some err) => ((none, some err), res.closeBody w)
        | (data, none) =>
          if res.StatusCode ≥ 400 then
            ((none, some (fmt.Errorf (goStr "atonix api error: ") data)), res.closeBody w)
          else
            ((some data, none), res.closeBody w)

/-- The method `Client.ListInstances`. -/
def Client.ListInstances (env : Env) (c : Client) (w : World) : Result × World :=
  c.do' env http.MethodGet (goStr "/api/services/instances/") none w

/-- The method `Client.ComplianceControls`. -/
def Client.ComplianceControls (env : Env) (c : Client) (framework : GoString) (w : World) :
    Result × World :=
  let framework := if framework = [] then goStr "soc2" else framework
  c.do' env http.MethodGet
    (goStr "/api/services/compliance/control_status/?framework=" ++ framework) none w

/-- The method `Client.CollectEvidence`. -/
def Client.CollectEvidence (env : Env) (c : Client) (framework : GoString) (w : World) :
    Result × World :=
  let framework := if framework = [] then goStr "soc2" else framework
  c.do' env http.MethodPost (goStr "/api/services/compliance/collect_evidence/")
    (some (.map [(goStr "framework", .str framework)])) w

/-- The method `Client.GraphQL`; `vars` is the parameter `variables` of the
source, `none` for a nil map. -/
def Client.GraphQL (env : Env) (c : Client) (query : GoString)
    (vars : Option (List (GoString × GoValue))) (w : World) : Result × World :=
  let vars := match vars with
    | none => []
    | some v => v
  c.do' env http.MethodPost (goStr "/api/graphql/")
    (some (.map [(goStr "query", .str query), (goStr "variables", .map vars)])) w

/-! ## Concrete environments and inputs -/

/-- An environment in which `http.NewRequest` reports `reqErr` (when there is
one) and the network gives the same `answer` to every request. -/
def stubEnv (reqErr : Option GoError) (answer : Except GoError Response) : Env :=
  { newRequestError := fun _ _ => reqErr, roundTrip := fun _ _ => answer }

/-- A mocked server: every request is accepted and answered with the given
status code and body. -/
def mockServer (status : Int) (body : Bytes) : Env :=
  stubEnv none (.ok { StatusCode := status, Body := (body, none) })

/-- A network that refuses the first request it sees and would answer any later
one with status 200. -/
def flakyEnv : Env :=
  { newRequestError := fun _ _ => none,
    roundTrip := fun sent _ =>
      if sent = [] then .error (.foreign 2 (goStr "dial tcp: connection refused"))
      else .ok { StatusCode := 200, Body := (goStr "late", none) } }

/-- A client for the examples. -/
def exampleClient : Client := NewClient (goStr "https://api.example.com") (goStr "secret")

/-- The state before any call. -/
def emptyWorld : World := { sent := [], closedBodies := 0 }

/-- The request `do` builds for the example client from a method, a path and a
body. -/
def exampleRequest (method path : GoString) (body : Option Bytes) : Request :=
  { Method := method, URL := goStr "https://api.example.com" ++ path,
    Header := [(goStr "Content-Type", [goStr "application/json"]),
               (goStr "Authorization", [goStr "Token secret"])],
    Body := body }

/-! ## Lemmas on `do` -/

/-- The header of a request after the two `Header.Set` calls of `do`. -/
theorem header_set_twice (token : GoString) :
    Header.Set (Header.Set [] (goStr "Content-Type") (goStr "application/json"))
      (goStr "Authorization") (goStr "Token " ++ token)
    = [(goStr "Content-Type", [goStr "application/json"]),
       (goStr "Authorization", [goStr "Token " ++ token])] := by
  have h : goStr "Content-Type" ≠ goStr "Authorization" := by decide
  simp [Header.Set, h]

/-- A request `http.NewRequest` returns: the method and URL were accepted, the
header is empty and the body is the one given. -/
theorem newRequest_ok {env : Env} {method url : GoString} {body : Option Bytes} {req : Request}
    (h : http.NewRequest env method url body = .ok req) :
    env.newRequestError (if method = [] then http.MethodGet else method) url = none ∧
    req = { Method := if method = [] then http.MethodGet else method, URL := url,
            Header := [], Body := body } := by
  unfold http.NewRequest at h
  cases hc : env.newRequestError (if method = [] then http.MethodGet else method) url with
  | some err => simp [hc] at h
  | none =>
    simp [hc] at h
    exact ⟨rfl, h.symm⟩

/-- An error `http.NewRequest` returns is the one reported for the method and
URL. -/
theorem newRequest_error {env : Env} {method url : GoString} {body : Option Bytes} {err : GoError}
    (h : http.NewRequest env method url body = .error err) :
    env.newRequestError (if method = [] then http.MethodGet else method) url = some err := by
  unfold http.NewRequest at h
  cases hc : env.newRequestError (if method = [] then http.MethodGet else method) url with
  | some e => simp [hc] at h; simp [h]
  | none => simp [hc] at h

/-- When the payload does not serialize, `do` returns the error and leaves the
world as it was. -/
theorem do_of_marshal_error {env : Env} {c : Client} {method path : GoString}
    {payload : Option GoValue} {w : World} {err : GoError}
    (hm : marshalPayload payload = .error err) :
    c.do' env method path payload w = ((none, some err), w) := by
  simp [Client.do', hm]

/-- When `http.NewRequest` fails, `do` returns the error and leaves the world as
it was. -/
theorem do_of_request_error {env : Env} {c : Client} {method path : GoString}
    {payload : Option GoValue} {w : World} {body : Option Bytes} {err : GoError}
    (hm : marshalPayload payload = .ok body)
    (hr : http.NewRequest env method (c.BaseURL ++ path) body = .error err) :
    c.do' env method path payload w = ((none, some err), w) := by
  simp [Client.do', hm, hr]

/-- When the request was built, `do` hands it over with the two headers set and
returns according to the answer of the network. -/
theorem do_of_request_ok {env : Env} {c : Client} {method path : GoString}
    {payload : Option GoValue} {w : World} {body : Option Bytes} {req : Request}
    (hm : marshalPayload payload = .ok body)
    (hr : http.NewRequest env method (c.BaseURL ++ path) body = .ok req) :
    c.do' env method path payload w =
      match env.roundTrip w.sent
        { Method := if method = [] then http.MethodGet else method, URL := c.BaseURL ++ path,
          Header := [(goStr "Content-Type", [goStr "application/json"]),
                     (goStr "Authorization", [goStr "Token " ++ c.Token])],
          Body := body } with
      | .error err => ((none, some err),
          { sent := w.sent ++ [{ Method := if method = [] then http.MethodGet else method,
                                 URL := c.BaseURL ++ path,
                                 Header := [(goStr "Content-Type", [goStr "application/json"]),
                                            (goStr "Authorization", [goStr "Token " ++ c.Token])],
                                 Body := body }],
            closedBodies := w.closedBodies })
      | .ok res =>
        ((match res.Body with
          | (_, some err) => (none, some err)
          | (data, none) =>
            if res.StatusCode ≥ 400 then
              (none, some (GoError.errorString (goStr "atonix api error: " ++ data)))
            else (some data, none)),
          { sent := w.sent ++ [{ Method := if method = [] then http.MethodGet else method,
                                 URL := c.BaseURL ++ path,
                                 Header := [(goStr "Content-Type", [goStr "application/json"]),
                                            (goStr "Authorization", [goStr "Token " ++ c.Token])],
                                 Body := body }],
            closedBodies := w.closedBodies + 1 }) := by
  obtain ⟨_, hreq⟩ := newRequest_ok hr
  subst hreq
  have hh := header_set_twice c.Token
  simp only [Client.do', hm, hr, HttpClient.Do, hh]
  cases hrt : env.roundTrip w.sent _ with
  | error err => simp [hrt]
  | ok res =>
    simp only [hrt, io.ReadAll, Response.closeBody, fmt.Errorf]
    rcases hb : res.Body with ⟨data, _ | e⟩ <;> simp [hb]
    split <;> rfl


/-- The log of requests after a call of `do` that built its request. -/
theorem do_sent_of_request_ok {env : Env} {c : Client} {method path : GoString}
    {payload : Option GoValue} {w : World} {body : Option Bytes} {req : Request}
    (hm : marshalPayload payload = .ok body)
    (hr : http.NewRequest env method (c.BaseURL ++ path) body = .ok req) :
    (c.do' env method path payload w).2.sent =
      w.sent ++ [{ Method := if method = [] then http.MethodGet else method,
                   URL := c.BaseURL ++ path,
                   Header := [(goStr "Content-Type", [goStr "application/json"]),
                              (goStr "Authorization", [goStr "Token " ++ c.Token])],
                   Body := body }] := by
  rw [do_of_request_ok hm hr]
  split <;> rfl

/-- What a call of `do` that built its request returns. -/
theorem do_result_of_request_ok {env : Env} {c : Client} {method path : GoString}
    {payload : Option GoValue} {w : World} {body : Option Bytes} {req : Request}
    (hm : marshalPayload payload = .ok body)
    (hr : http.NewRequest env method (c.BaseURL ++ path) body = .ok req) :
    (c.do' env method path payload w).1 =
      match env.roundTrip w.sent
        { Method := if method = [] then http.MethodGet else method, URL := c.BaseURL ++ path,
          Header := [(goStr "Content-Type", [goStr "application/json"]),
                     (goStr "Authorization", [goStr "Token " ++ c.Token])],
          Body := body } with
      | .error err => (none, some err)
      | .ok res =>
        match res.Body with
        | (_, some err) => (none, some err)
        | (data, none) =>
          if res.StatusCode ≥ 400 then
            (none, some (GoError.errorString (goStr "atonix api error: " ++ data)))
          else (some data, none) := by
  rw [do_of_request_ok hm hr]
  split <;> rfl

/-- Every call of `do` ends in one of three ways: serialization failed, request
construction failed, or one request was handed to the network. -/
theorem do_cases (env : Env) (c : Client) (method path : GoString) (payload : Option GoValue)
    (w : World) :
    (∃ err, marshalPayload payload = .error err ∧
      c.do' env method path payload w = ((none, some err), w)) ∨
    (∃ body err, marshalPayload payload = .ok body ∧
      http.NewRequest env method (c.BaseURL ++ path) body = .error err ∧
      c.do' env method path payload w = ((none, some err), w)) ∨
    (∃ body req, marshalPayload payload = .ok body ∧
      http.NewRequest env method (c.BaseURL ++ path) body = .ok req) := by
  cases hm : marshalPayload payload with
  | error err => exact Or.inl ⟨err, rfl, do_of_marshal_error hm⟩
  | ok body =>
    cases hr : http.NewRequest env method (c.BaseURL ++ path) body with
    | error err => exact Or.inr (Or.inl ⟨body, err, rfl, hr, do_of_request_error hm hr⟩)
    | ok req => exact Or.inr (Or.inr ⟨body, req, rfl, hr⟩)

/-- Each public operation is one call of `do`. -/
theorem op_is_do {env : Env} {c : Client} {method path : GoString} {payload : Option GoValue}
    {framework query : GoString} {vars : Option (List (GoString × GoValue))}
    {op : World → Result × World}
    (hop : op ∈ [c.do' env method path payload, c.ListInstances env,
      c.ComplianceControls env framework, c.CollectEvidence env framework,
      c.GraphQL env query vars]) :
    ∃ m p pl, op = c.do' env m p pl := by
  simp only [List.mem_cons, List.mem_singleton, List.not_mem_nil, or_false] at hop
  rcases hop with h | h | h | h | h
  · exact ⟨_, _, _, h⟩
  · exact ⟨http.MethodGet, goStr "/api/services/instances/", none, h⟩
  · exact ⟨http.MethodGet, goStr "/api/services/compliance/control_status/?framework="
      ++ (if framework = [] then goStr "soc2" else framework), none, h⟩
  · exact ⟨http.MethodPost, goStr "/api/services/compliance/collect_evidence/",
      some (.map [(goStr "framework", .str (if framework = [] then goStr "soc2" else framework))]),
      h⟩
  · exact ⟨http.MethodPost, goStr "/api/graphql/",
      some (.map [(goStr "query", .str query), (goStr "variables", .map (vars.getD []))]),
      h.trans (by cases vars <;> rfl)⟩

/-- What a call of `do` returns once a request was sent and answered. -/
theorem do_answered {env : Env} {c : Client} {m p : GoString} {pl : Option GoValue}
    {w : World} {req : Request} {res : Response}
    (hsent : (c.do' env m p pl w).2.sent = w.sent ++ [req])
    (hres : env.roundTrip w.sent req = .ok res) :
    (c.do' env m p pl w).1 =
      match res.Body with
      | (_, some err) => (none, some err)
      | (data, none) =>
        if res.StatusCode ≥ 400 then
          (none, some (GoError.errorString (goStr "atonix api error: " ++ data)))
        else (some data, none) := by
  rcases do_cases env c m p pl w with ⟨err, _, h⟩ | ⟨body, err, _, _, h⟩ | ⟨body, rq, hm, hr⟩
  · rw [h] at hsent; simp at hsent
  · rw [h] at hsent; simp at hsent
  · rw [do_sent_of_request_ok hm hr] at hsent
    have hreq := List.append_cancel_left hsent
    simp only [List.cons.injEq, and_true] at hreq
    rw [do_result_of_request_ok hm hr, hreq, hres]


/-- The requests a call of `do` adds to the log: at most one, built after the
payload was serialized and `http.NewRequest` accepted the method and URL. -/
theorem do_new_request {env : Env} {c : Client} {m p : GoString} {pl : Option GoValue}
    {w : World} {new : List Request} {req : Request}
    (hnew : (c.do' env m p pl w).2.sent = w.sent ++ new) (hmem : req ∈ new) :
    ∃ body, marshalPayload pl = .ok body ∧
      env.newRequestError (if m = [] then http.MethodGet else m) (c.BaseURL ++ p) = none ∧
      new = [req] ∧
      req = { Method := if m = [] then http.MethodGet else m, URL := c.BaseURL ++ p,
              Header := [(goStr "Content-Type", [goStr "application/json"]),
                         (goStr "Authorization", [goStr "Token " ++ c.Token])],
              Body := body } := by
  rcases do_cases env c m p pl w with ⟨err, _, h⟩ | ⟨body, err, _, _, h⟩ | ⟨body, rq, hm, hr⟩
  · rw [h] at hnew
    have : new = [] := by simpa using hnew.symm
    subst this
    simp at hmem
  · rw [h] at hnew
    have : new = [] := by simpa using hnew.symm
    subst this
    simp at hmem
  · rw [do_sent_of_request_ok hm hr] at hnew
    have hreq := (List.append_cancel_left hnew).symm
    subst hreq
    simp only [List.mem_singleton] at hmem
    subst hmem
    exact ⟨body, hm, (newRequest_ok hr).1, rfl, rfl⟩

/-- A call of `do` whose payload serializes and whose method and URL are
accepted hands exactly one request to the network. -/
theorem do_sent_of_accepted {env : Env} {c : Client} (m : GoString) {p : GoString}
    (pl : Option GoValue) {w : World} {body : Option Bytes}
    (hm : marshalPayload pl = .ok body)
    (hacc : env.newRequestError (if m = [] then http.MethodGet else m) (c.BaseURL ++ p) = none) :
    (c.do' env m p pl w).2.sent =
      w.sent ++ [{ Method := if m = [] then http.MethodGet else m, URL := c.BaseURL ++ p,
                   Header := [(goStr "Content-Type", [goStr "application/json"]),
                              (goStr "Authorization", [goStr "Token " ++ c.Token])],
                   Body := body }] := by
  have hr : http.NewRequest env m (c.BaseURL ++ p) body
      = .ok { Method := if m = [] then http.MethodGet else m, URL := c.BaseURL ++ p,
              Header := [], Body := body } := by
    simp [http.NewRequest, hacc]
  exact do_sent_of_request_ok hm hr

/-- The JSON text of the payload of `CollectEvidence`. -/
theorem marshal_framework (f : GoString) :
    json.Marshal (.map [(goStr "framework", .str f)])
      = .ok (goStr "\x7b\"framework\":" ++ appendString f ++ goStr "\x7d") := by
  rfl

/-- The JSON text of the payload of `GraphQL` with an empty map of variables. -/
theorem marshal_query_empty (q : GoString) :
    json.Marshal (.map [(goStr "query", .str q), (goStr "variables", .map [])])
      = .ok (goStr "\x7b\"query\":" ++ appendString q ++ goStr ",\"variables\":\x7b\x7d\x7d") := by
  have h : json.Marshal (.map [(goStr "query", .str q), (goStr "variables", .map [])])
      = .ok (goStr "\x7b" ++ (appendString (goStr "query") ++ goStr ":" ++ appendString q
          ++ goStr "," ++ (appendString (goStr "variables") ++ goStr ":"
          ++ (goStr "\x7b" ++ [] ++ goStr "\x7d"))) ++ goStr "\x7d") := rfl
  rw [h]
  simp only [List.append_assoc]
  rfl

/-- The JSON text of the payload of `GraphQL`: the query, then the variables
as the encoder writes them; an error of the encoder on the variables is the
error of the whole. -/
theorem marshal_query_vars (q : GoString) (v : List (GoString × GoValue)) :
    json.Marshal (.map [(goStr "query", .str q), (goStr "variables", .map v)])
      = match json.Marshal (.map v) with
        | .error err => .error err
        | .ok vb => .ok (goStr "\x7b\"query\":" ++ appendString q ++ goStr ",\"variables\":"
            ++ vb ++ goStr "\x7d") := by
  have h : json.Marshal (.map [(goStr "query", .str q), (goStr "variables", .map v)])
      = match writeFields [(goStr "query", .ok (appendString q)),
          (goStr "variables", json.Marshal (.map v))] with
        | .error err => .error err
        | .ok out => .ok (goStr "\x7b" ++ joinComma out ++ goStr "\x7d") := rfl
  rw [h]
  cases json.Marshal (.map v) with
  | error err => rfl
  | ok vb =>
    simp only [writeFields, joinComma, List.append_assoc]
    rfl

/-- A call of `do` whose payload serializes, whose method and URL are accepted
and whose request is answered with a status code of 400 or more and a body read
in full returns no bytes and the error carrying "atonix api error: " and the
body. -/
theorem do_api_error {env : Env} {c : Client} (m : GoString) {p : GoString}
    (pl : Option GoValue) {w : World} {body : Option Bytes} {res : Response} {data : Bytes}
    (hm : marshalPayload pl = .ok body)
    (hacc : env.newRequestError (if m = [] then http.MethodGet else m) (c.BaseURL ++ p) = none)
    (hres : env.roundTrip w.sent
      { Method := if m = [] then http.MethodGet else m, URL := c.BaseURL ++ p,
        Header := [(goStr "Content-Type", [goStr "application/json"]),
                   (goStr "Authorization", [goStr "Token " ++ c.Token])],
        Body := body } = .ok res)
    (hread : io.ReadAll res = (data, none))
    (hstatus : 400 ≤ res.StatusCode) :
    (c.do' env m p pl w).1
      = (none, some (.errorString (goStr "atonix api error: " ++ data))) := by
  rw [do_answered (do_sent_of_accepted m pl hm hacc) hres]
  simp only [io.ReadAll] at hread
  rw [hread]
  simp [hstatus]

/-! ## Responses: success and API errors -/

/-- C1: whenever the request of a call was answered with a status code below
400 and the body was read in full, `do`, and so each of the four public
operations, returns the bytes read, unchanged, and no error. -/
theorem success_returns_body (env : Env) (c : Client) (method path : GoString)
    (payload : Option GoValue) (framework query : GoString)
    (vars : Option (List (GoString × GoValue))) (op : World → Result × World)
    (hop : op ∈ [c.do' env method path payload, c.ListInstances env,
      c.ComplianceControls env framework, c.CollectEvidence env framework,
      c.GraphQL env query vars])
    (w : World) (req : Request) (res : Response) (data : Bytes)
    (hsent : (op w).2.sent = w.sent ++ [req])
    (hres : env.roundTrip w.sent req = .ok res)
    (hread : io.ReadAll res = (data, none))
    (hstatus : res.StatusCode < 400) :
    (op w).1 = (some data, none) := by
  obtain ⟨m, p, pl, rfl⟩ := op_is_do hop
  rw [do_answered hsent hres]
  simp only [io.ReadAll] at hread
  rw [hread]
  simp [not_le.mpr hstatus]

/-- Witness of C1: against a server answering 200 with the body `{"ok":true}`,
the four public operations return those bytes; `do` does so for status 399
too. -/
theorem success_returns_body_witness :
    (exampleClient.ListInstances (mockServer 200 (goStr "\x7b\"ok\":true\x7d")) emptyWorld).1
      = (some (goStr "\x7b\"ok\":true\x7d"), none) ∧
    (exampleClient.ComplianceControls (mockServer 200 (goStr "\x7b\"ok\":true\x7d"))
        (goStr "pci") emptyWorld).1
      = (some (goStr "\x7b\"ok\":true\x7d"), none) ∧
    (exampleClient.CollectEvidence (mockServer 200 (goStr "\x7b\"ok\":true\x7d"))
        (goStr "hipaa") emptyWorld).1
      = (some (goStr "\x7b\"ok\":true\x7d"), none) ∧
    (exampleClient.GraphQL (mockServer 200 (goStr "\x7b\"ok\":true\x7d"))
        (goStr "\x7b x \x7d") none emptyWorld).1
      = (some (goStr "\x7b\"ok\":true\x7d"), none) ∧
    (exampleClient.do' (mockServer 399 (goStr "edge")) (goStr "PUT") (goStr "/x")
        (some (.bool true)) emptyWorld).1
      = (some (goStr "edge"), none) :=
  ⟨success_returns_body (mockServer 200 (goStr "\x7b\"ok\":true\x7d")) exampleClient [] [] none
      [] [] none (exampleClient.ListInstances (mockServer 200 (goStr "\x7b\"ok\":true\x7d")))
      (by simp) emptyWorld
      (exampleRequest (goStr "GET") (goStr "/api/services/instances/") none)
      { StatusCode := 200, Body := (goStr "\x7b\"ok\":true\x7d", none) }
      (goStr "\x7b\"ok\":true\x7d") (by decide) rfl rfl (by decide),
   success_returns_body (mockServer 200 (goStr "\x7b\"ok\":true\x7d")) exampleClient [] [] none
      (goStr "pci") [] none
      (exampleClient.ComplianceControls (mockServer 200 (goStr "\x7b\"ok\":true\x7d")) (goStr "pci"))
      (by simp) emptyWorld
      (exampleRequest (goStr "GET")
        (goStr "/api/services/compliance/control_status/?framework=pci") none)
      { StatusCode := 200, Body := (goStr "\x7b\"ok\":true\x7d", none) }
      (goStr "\x7b\"ok\":true\x7d") (by decide) rfl rfl (by decide),
   success_returns_body (mockServer 200 (goStr "\x7b\"ok\":true\x7d")) exampleClient [] [] none
      (goStr "hipaa") [] none
      (exampleClient.CollectEvidence (mockServer 200 (goStr "\x7b\"ok\":true\x7d")) (goStr "hipaa"))
      (by simp) emptyWorld
      (exampleRequest (goStr "POST") (goStr "/api/services/compliance/collect_evidence/")
        (some (goStr "\x7b\"framework\":\"hipaa\"\x7d")))
      { StatusCode := 200, Body := (goStr "\x7b\"ok\":true\x7d", none) }
      (goStr "\x7b\"ok\":true\x7d") (by decide) rfl rfl (by decide),
   success_returns_body (mockServer 200 (goStr "\x7b\"ok\":true\x7d")) exampleClient [] [] none
      [] (goStr "\x7b x \x7d") none
      (exampleClient.GraphQL (mockServer 200 (goStr "\x7b\"ok\":true\x7d")) (goStr "\x7b x \x7d") none)
      (by simp) emptyWorld
      (exampleRequest (goStr "POST") (goStr "/api/graphql/")
        (some (goStr "\x7b\"query\":\"\x7b x \x7d\",\"variables\":\x7b\x7d\x7d")))
      { StatusCode := 200, Body := (goStr "\x7b\"ok\":true\x7d", none) }
      (goStr "\x7b\"ok\":true\x7d") (by decide) rfl rfl (by decide),
   success_returns_body (mockServer 399 (goStr "edge")) exampleClient (goStr "PUT") (goStr "/x")
      (some (.bool true)) [] [] none
      (exampleClient.do' (mockServer 399 (goStr "edge")) (goStr "PUT") (goStr "/x")
        (some (.bool true)))
      (by simp) emptyWorld
      (exampleRequest (goStr "PUT") (goStr "/x") (some (goStr "true")))
      { StatusCode := 399, Body := (goStr "edge", none) }
      (goStr "edge") (by decide) rfl rfl (by decide)⟩

/-- C2: when the answer to a call has a status code of 400 or more and its body
was read in full, the call returns no bytes and the error whose message is
"atonix api error: " followed by the body, which the message so contains; the
status code has no part in it. This holds for `do` on any method, path and
payload that serializes, and for each of the four public operations, once
`http.NewRequest` accepts the method and URL. -/
theorem api_error_embeds_body (env : Env) (c : Client) (w : World) (res : Response)
    (data : Bytes)
    (hread : io.ReadAll res = (data, none))
    (hstatus : 400 ≤ res.StatusCode) :
    (∀ method path payload body, marshalPayload payload = .ok body →
      env.newRequestError (if method = [] then http.MethodGet else method)
        (c.BaseURL ++ path) = none →
      env.roundTrip w.sent
        { Method := if method = [] then http.MethodGet else method,
          URL := c.BaseURL ++ path,
          Header := [(goStr "Content-Type", [goStr "application/json"]),
                     (goStr "Authorization", [goStr "Token " ++ c.Token])],
          Body := body } = .ok res →
      (c.do' env method path payload w).1
        = (none, some (.errorString (goStr "atonix api error: " ++ data)))) ∧
    (env.newRequestError (goStr "GET") (c.BaseURL ++ goStr "/api/services/instances/") = none →
      env.roundTrip w.sent
        { Method := goStr "GET", URL := c.BaseURL ++ goStr "/api/services/instances/",
          Header := [(goStr "Content-Type", [goStr "application/json"]),
                     (goStr "Authorization", [goStr "Token " ++ c.Token])],
          Body := none } = .ok res →
      (c.ListInstances env w).1
        = (none, some (.errorString (goStr "atonix api error: " ++ data)))) ∧
    (∀ framework,
      env.newRequestError (goStr "GET")
        (c.BaseURL ++ goStr "/api/services/compliance/control_status/?framework="
          ++ (if framework = [] then goStr "soc2" else framework)) = none →
      env.roundTrip w.sent
        { Method := goStr "GET",
          URL := c.BaseURL ++ goStr "/api/services/compliance/control_status/?framework="
            ++ (if framework = [] then goStr "soc2" else framework),
          Header := [(goStr "Content-Type", [goStr "application/json"]),
                     (goStr "Authorization", [goStr "Token " ++ c.Token])],
          Body := none } = .ok res →
      (c.ComplianceControls env framework w).1
        = (none, some (.errorString (goStr "atonix api error: " ++ data)))) ∧
    (∀ framework,
      env.newRequestError (goStr "POST")
        (c.BaseURL ++ goStr "/api/services/compliance/collect_evidence/") = none →
      env.roundTrip w.sent
        { Method := goStr "POST",
          URL := c.BaseURL ++ goStr "/api/services/compliance/collect_evidence/",
          Header := [(goStr "Content-Type", [goStr "application/json"]),
                     (goStr "Authorization", [goStr "Token " ++ c.Token])],
          Body := some (goStr "\x7b\"framework\":"
            ++ appendString (if framework = [] then goStr "soc2" else framework)
            ++ goStr "\x7d") } = .ok res →
      (c.CollectEvidence env framework w).1
        = (none, some (.errorString (goStr "atonix api error: " ++ data)))) ∧
    (∀ query vars body,
      marshalPayload (some (.map [(goStr "query", .str query),
        (goStr "variables", .map (vars.getD []))])) = .ok body →
      env.newRequestError (goStr "POST") (c.BaseURL ++ goStr "/api/graphql/") = none →
      env.roundTrip w.sent
        { Method := goStr "POST", URL := c.BaseURL ++ goStr "/api/graphql/",
          Header := [(goStr "Content-Type", [goStr "application/json"]),
                     (goStr "Authorization", [goStr "Token " ++ c.Token])],
          Body := body } = .ok res →
      (c.GraphQL env query vars w).1
        = (none, some (.errorString (goStr "atonix api error: " ++ data)))) ∧
    (GoError.errorString (goStr "atonix api error: " ++ data)).Error
      = goStr "atonix api error: " ++ data ∧
    data <:+: (GoError.errorString (goStr "atonix api error: " ++ data)).Error := by
  refine ⟨?_, ?_, ?_, ?_, ?_, rfl, (List.suffix_append _ _).isInfix⟩
  · intro method path payload body hm hacc hres
    exact do_api_error method payload hm hacc hres hread hstatus
  · intro hacc hres
    exact do_api_error http.MethodGet none rfl hacc hres hread hstatus
  · intro framework hacc hres
    rw [List.append_assoc] at hacc hres
    exact do_api_error http.MethodGet none rfl hacc hres hread hstatus
  · intro framework hacc hres
    have hm : marshalPayload (some (.map [(goStr "framework",
          .str (if framework = [] then goStr "soc2" else framework))]))
        = .ok (some (goStr "\x7b\"framework\":"
            ++ appendString (if framework = [] then goStr "soc2" else framework)
            ++ goStr "\x7d")) := by
      simp only [marshalPayload, marshal_framework]
    exact do_api_error http.MethodPost _ hm hacc hres hread hstatus
  · intro query vars body hm hacc hres
    have hg : c.GraphQL env query vars w
        = c.do' env http.MethodPost (goStr "/api/graphql/")
            (some (.map [(goStr "query", .str query),
              (goStr "variables", .map (vars.getD []))])) w := by
      cases vars <;> rfl
    rw [hg]
    exact do_api_error http.MethodPost _ hm hacc hres hread hstatus

set_option maxRecDepth 8192 in
/-- Witness of C2: against a server answering 404 with the body `not found`,
each of the four public operations returns no bytes and the error with the
message `atonix api error: not found`, and so does `do` at status 400. -/
theorem api_error_embeds_body_witness :
    (exampleClient.ListInstances (mockServer 404 (goStr "not found")) emptyWorld).1
      = (none, some (.errorString (goStr "atonix api error: " ++ goStr "not found"))) ∧
    (exampleClient.ComplianceControls (mockServer 404 (goStr "not found")) (goStr "pci")
        emptyWorld).1
      = (none, some (.errorString (goStr "atonix api error: " ++ goStr "not found"))) ∧
    (exampleClient.CollectEvidence (mockServer 404 (goStr "not found")) (goStr "hipaa")
        emptyWorld).1
      = (none, some (.errorString (goStr "atonix api error: " ++ goStr "not found"))) ∧
    (exampleClient.GraphQL (mockServer 404 (goStr "not found")) (goStr "\x7b x \x7d") none
        emptyWorld).1
      = (none, some (.errorString (goStr "atonix api error: " ++ goStr "not found"))) ∧
    (exampleClient.do' (mockServer 400 (goStr "not found")) (goStr "PUT") (goStr "/x")
        (some (.bool true)) emptyWorld).1
      = (none, some (.errorString (goStr "atonix api error: " ++ goStr "not found"))) ∧
    goStr "not found"
      <:+: (GoError.errorString (goStr "atonix api error: " ++ goStr "not found")).Error :=
  ⟨(api_error_embeds_body (mockServer 404 (goStr "not found")) exampleClient emptyWorld
      { StatusCode := 404, Body := (goStr "not found", none) } (goStr "not found")
      rfl (by decide)).2.1 rfl rfl,
   (api_error_embeds_body (mockServer 404 (goStr "not found")) exampleClient emptyWorld
      { StatusCode := 404, Body := (goStr "not found", none) } (goStr "not found")
      rfl (by decide)).2.2.1 (goStr "pci") rfl rfl,
   (api_error_embeds_body (mockServer 404 (goStr "not found")) exampleClient emptyWorld
      { StatusCode := 404, Body := (goStr "not found", none) } (goStr "not found")
      rfl (by decide)).2.2.2.1 (goStr "hipaa") rfl rfl,
   (api_error_embeds_body (mockServer 404 (goStr "not found")) exampleClient emptyWorld
      { StatusCode := 404, Body := (goStr "not found", none) } (goStr "not found")
      rfl (by decide)).2.2.2.2.1 (goStr "\x7b x \x7d") none
      (some (goStr "\x7b\"query\":\"\x7b x \x7d\",\"variables\":\x7b\x7d\x7d")) rfl rfl rfl,
   (api_error_embeds_body (mockServer 400 (goStr "not found")) exampleClient emptyWorld
      { StatusCode := 400, Body := (goStr "not found", none) } (goStr "not found")
      rfl (by decide)).1 (goStr "PUT") (goStr "/x") (some (.bool true))
      (some (goStr "true")) rfl rfl rfl,
   (api_error_embeds_body (mockServer 404 (goStr "not found")) exampleClient emptyWorld
      { StatusCode := 404, Body := (goStr "not found", none) } (goStr "not found")
      rfl (by decide)).2.2.2.2.2.2⟩

/-! ## Headers -/

/-- C3: every request a call of `do` (and so of a public operation) hands to the
network carries `Content-Type` with the one value `application/json` and
`Authorization` with the one value "Token " followed by the client's token,
which is never empty, whatever the method, path and payload. -/
theorem requests_carry_headers (env : Env) (c : Client) (method path : GoString)
    (payload : Option GoValue) (framework query : GoString)
    (vars : Option (List (GoString × GoValue))) (op : World → Result × World)
    (hop : op ∈ [c.do' env method path payload, c.ListInstances env,
      c.ComplianceControls env framework, c.CollectEvidence env framework,
      c.GraphQL env query vars])
    (w : World) (new : List Request) (req : Request)
    (hnew : (op w).2.sent = w.sent ++ new) (hmem : req ∈ new) :
    Header.Values req.Header (goStr "Content-Type") = [goStr "application/json"] ∧
    Header.Get req.Header (goStr "Content-Type") = goStr "application/json" ∧
    Header.Values req.Header (goStr "Authorization") = [goStr "Token " ++ c.Token] ∧
    Header.Get req.Header (goStr "Authorization") = goStr "Token " ++ c.Token ∧
    Header.Get req.Header (goStr "Authorization") ≠ [] := by
  obtain ⟨m, p, pl, rfl⟩ := op_is_do hop
  obtain ⟨body, _, _, _, hreq⟩ := do_new_request hnew hmem
  subst hreq
  have hk : goStr "Content-Type" ≠ goStr "Authorization" := by decide
  have hv : Header.Values [(goStr "Content-Type", [goStr "application/json"]),
      (goStr "Authorization", [goStr "Token " ++ c.Token])] (goStr "Authorization")
      = [goStr "Token " ++ c.Token] := by
    simp [Header.Values, hk]
  refine ⟨by simp [Header.Values], by simp [Header.Get, Header.Values], hv, ?_, ?_⟩
  · simp only [Header.Get, hv, List.headD_cons]
  · simp only [Header.Get, hv, List.headD_cons]
    have ht : goStr "Token " = 84 :: goStr "oken " := by decide
    rw [ht]
    simp

/-- Witness of C3: the request `GraphQL` sends for a client whose token is empty
has `Content-Type: application/json` and the `Authorization` value "Token ". -/
theorem requests_carry_headers_witness :
    Header.Values (exampleRequest (goStr "POST") (goStr "/api/graphql/")
        (some (goStr "\x7b\"query\":\"q\",\"variables\":\x7b\x7d\x7d"))).Header
      (goStr "Content-Type") = [goStr "application/json"] ∧
    Header.Get (Request.mk (goStr "GET") (goStr "/api/services/instances/")
        [(goStr "Content-Type", [goStr "application/json"]),
         (goStr "Authorization", [goStr "Token "])] none).Header
      (goStr "Authorization") = goStr "Token " :=
  ⟨(requests_carry_headers (mockServer 200 []) exampleClient [] [] none [] (goStr "q") none
      (exampleClient.GraphQL (mockServer 200 []) (goStr "q") none) (by simp) emptyWorld
      [exampleRequest (goStr "POST") (goStr "/api/graphql/")
        (some (goStr "\x7b\"query\":\"q\",\"variables\":\x7b\x7d\x7d"))]
      (exampleRequest (goStr "POST") (goStr "/api/graphql/")
        (some (goStr "\x7b\"query\":\"q\",\"variables\":\x7b\x7d\x7d")))
      (by decide) (by simp)).1,
   (requests_carry_headers (mockServer 200 []) (NewClient [] []) [] [] none [] [] none
      ((NewClient [] []).ListInstances (mockServer 200 [])) (by simp) emptyWorld
      [{ Method := goStr "GET", URL := goStr "/api/services/instances/",
         Header := [(goStr "Content-Type", [goStr "application/json"]),
                    (goStr "Authorization", [goStr "Token "])],
         Body := none }]
      { Method := goStr "GET", URL := goStr "/api/services/instances/",
        Header := [(goStr "Content-Type", [goStr "application/json"]),
                   (goStr "Authorization", [goStr "Token "])],
        Body := none }
      (by decide) (by simp)).2.2.2.1⟩

/-! ## The requests of the public operations -/

/-- C8: `ListInstances` is the call of `do` with method GET, the path
`/api/services/instances/` and no payload; any request it sends is a GET to the
base URL followed by that path, without a body, and that request is sent
whenever `http.NewRequest` accepts the URL. -/
theorem listInstances_request (env : Env) (c : Client) (w : World) :
    c.ListInstances env w
      = c.do' env (goStr "GET") (goStr "/api/services/instances/") none w ∧
    (∀ new req, (c.ListInstances env w).2.sent = w.sent ++ new → req ∈ new →
      req.Method = goStr "GET" ∧ req.URL = c.BaseURL ++ goStr "/api/services/instances/" ∧
      req.Body = none) ∧
    (env.newRequestError (goStr "GET") (c.BaseURL ++ goStr "/api/services/instances/") = none →
      (c.ListInstances env w).2.sent
        = w.sent ++ [{ Method := goStr "GET",
                       URL := c.BaseURL ++ goStr "/api/services/instances/",
                       Header := [(goStr "Content-Type", [goStr "application/json"]),
                                  (goStr "Authorization", [goStr "Token " ++ c.Token])],
                       Body := none }]) := by
  refine ⟨rfl, ?_, ?_⟩
  · intro new req hnew hmem
    obtain ⟨body, hm, _, _, hreq⟩ := do_new_request hnew hmem
    simp only [marshalPayload, Except.ok.injEq] at hm
    subst hreq
    exact ⟨rfl, rfl, hm.symm⟩
  · intro hacc
    exact do_sent_of_accepted http.MethodGet none rfl hacc

/-- Witness of C8: against a mocked server, `ListInstances` sends one GET to
`https://api.example.com/api/services/instances/` with no body. -/
theorem listInstances_request_witness :
    (exampleClient.ListInstances (mockServer 200 (goStr "[]")) emptyWorld).2.sent
      = [exampleRequest (goStr "GET") (goStr "/api/services/instances/") none] :=
  (listInstances_request (mockServer 200 (goStr "[]")) exampleClient emptyWorld).2.2 rfl

/-- C4: `ComplianceControls f` is the call of `do` with method GET, no payload,
and the path `/api/services/compliance/control_status/?framework=` followed by
`f`, or by `soc2` when `f` is empty; `f` is appended as it is. Any request it
sends is a GET to the base URL followed by that path, without a body, and that
request is sent whenever `http.NewRequest` accepts the URL. -/
theorem complianceControls_request (env : Env) (c : Client) (framework : GoString) (w : World) :
    c.ComplianceControls env framework w
      = c.do' env (goStr "GET")
          (goStr "/api/services/compliance/control_status/?framework="
            ++ (if framework = [] then goStr "soc2" else framework)) none w ∧
    (∀ new req, (c.ComplianceControls env framework w).2.sent = w.sent ++ new → req ∈ new →
      req.Method = goStr "GET" ∧
      req.URL = c.BaseURL ++ goStr "/api/services/compliance/control_status/?framework="
        ++ (if framework = [] then goStr "soc2" else framework) ∧
      req.Body = none) ∧
    (env.newRequestError (goStr "GET")
        (c.BaseURL ++ goStr "/api/services/compliance/control_status/?framework="
          ++ (if framework = [] then goStr "soc2" else framework)) = none →
      (c.ComplianceControls env framework w).2.sent
        = w.sent ++ [{ Method := goStr "GET",
                       URL := c.BaseURL
                         ++ goStr "/api/services/compliance/control_status/?framework="
                         ++ (if framework = [] then goStr "soc2" else framework),
                       Header := [(goStr "Content-Type", [goStr "application/json"]),
                                  (goStr "Authorization", [goStr "Token " ++ c.Token])],
                       Body := none }]) := by
  refine ⟨rfl, ?_, ?_⟩
  · intro new req hnew hmem
    have hnew' : (c.do' env http.MethodGet
        (goStr "/api/services/compliance/control_status/?framework="
          ++ (if framework = [] then goStr "soc2" else framework)) none w).2.sent
        = w.sent ++ new := hnew
    obtain ⟨body, hm, _, _, hreq⟩ := do_new_request hnew' hmem
    simp only [marshalPayload, Except.ok.injEq] at hm
    subst hreq
    exact ⟨rfl, (List.append_assoc _ _ _).symm, hm.symm⟩
  · intro hacc
    rw [List.append_assoc] at hacc
    rw [List.append_assoc]
    exact do_sent_of_accepted http.MethodGet none rfl hacc

set_option maxRecDepth 8192 in
/-- Witness of C4: `ComplianceControls ""` asks for framework `soc2` and
`ComplianceControls "pci"` has `framework=pci` in the query string. -/
theorem complianceControls_request_witness :
    (exampleClient.ComplianceControls (mockServer 200 (goStr "[]")) (goStr "") emptyWorld).2.sent
      = [exampleRequest (goStr "GET")
          (goStr "/api/services/compliance/control_status/?framework=soc2") none] ∧
    (exampleClient.ComplianceControls (mockServer 200 (goStr "[]")) (goStr "pci") emptyWorld).2.sent
      = [exampleRequest (goStr "GET")
          (goStr "/api/services/compliance/control_status/?framework=pci") none] :=
  ⟨(complianceControls_request (mockServer 200 (goStr "[]")) exampleClient (goStr "")
      emptyWorld).2.2 rfl,
   (complianceControls_request (mockServer 200 (goStr "[]")) exampleClient (goStr "pci")
      emptyWorld).2.2 rfl⟩

/-- C5: `CollectEvidence f` is the call of `do` with method POST, the path
`/api/services/compliance/collect_evidence/` and the payload mapping the one key
`framework` to `f`, or to `soc2` when `f` is empty. Any request it sends is a
POST to the base URL followed by that path whose body is the JSON text of that
payload; the request is sent whenever `http.NewRequest` accepts the URL. For
`hipaa` the body is `{"framework":"hipaa"}`, for the empty string
`{"framework":"soc2"}`. -/
theorem collectEvidence_request (env : Env) (c : Client) (framework : GoString) (w : World) :
    c.CollectEvidence env framework w
      = c.do' env (goStr "POST") (goStr "/api/services/compliance/collect_evidence/")
          (some (.map [(goStr "framework",
            .str (if framework = [] then goStr "soc2" else framework))])) w ∧
    json.Marshal (.map [(goStr "framework",
        .str (if framework = [] then goStr "soc2" else framework))])
      = .ok (goStr "\x7b\"framework\":"
          ++ appendString (if framework = [] then goStr "soc2" else framework)
          ++ goStr "\x7d") ∧
    (∀ new req, (c.CollectEvidence env framework w).2.sent = w.sent ++ new → req ∈ new →
      req.Method = goStr "POST" ∧
      req.URL = c.BaseURL ++ goStr "/api/services/compliance/collect_evidence/" ∧
      req.Body = some (goStr "\x7b\"framework\":"
          ++ appendString (if framework = [] then goStr "soc2" else framework)
          ++ goStr "\x7d")) ∧
    (env.newRequestError (goStr "POST")
        (c.BaseURL ++ goStr "/api/services/compliance/collect_evidence/") = none →
      (c.CollectEvidence env framework w).2.sent
        = w.sent ++ [{ Method := goStr "POST",
                       URL := c.BaseURL ++ goStr "/api/services/compliance/collect_evidence/",
                       Header := [(goStr "Content-Type", [goStr "application/json"]),
                                  (goStr "Authorization", [goStr "Token " ++ c.Token])],
                       Body := some (goStr "\x7b\"framework\":"
                         ++ appendString (if framework = [] then goStr "soc2" else framework)
                         ++ goStr "\x7d") }]) ∧
    (framework = goStr "hipaa" →
      goStr "\x7b\"framework\":"
          ++ appendString (if framework = [] then goStr "soc2" else framework) ++ goStr "\x7d"
        = goStr "\x7b\"framework\":\"hipaa\"\x7d") ∧
    (framework = [] →
      goStr "\x7b\"framework\":"
          ++ appendString (if framework = [] then goStr "soc2" else framework) ++ goStr "\x7d"
        = goStr "\x7b\"framework\":\"soc2\"\x7d") := by
  have hm : marshalPayload (some (.map [(goStr "framework",
        .str (if framework = [] then goStr "soc2" else framework))]))
      = .ok (some (goStr "\x7b\"framework\":"
          ++ appendString (if framework = [] then goStr "soc2" else framework)
          ++ goStr "\x7d")) := by
    simp only [marshalPayload, marshal_framework]
  refine ⟨rfl, marshal_framework _, ?_, ?_, ?_, ?_⟩
  · intro new req hnew hmem
    have hnew' : (c.do' env http.MethodPost (goStr "/api/services/compliance/collect_evidence/")
        (some (.map [(goStr "framework",
          .str (if framework = [] then goStr "soc2" else framework))])) w).2.sent
        = w.sent ++ new := hnew
    obtain ⟨body, hb, _, _, hreq⟩ := do_new_request hnew' hmem
    rw [hm] at hb
    simp only [Except.ok.injEq] at hb
    subst hreq
    exact ⟨rfl, rfl, hb.symm⟩
  · intro hacc
    exact do_sent_of_accepted http.MethodPost _ hm hacc
  · intro hf
    subst hf
    decide
  · intro hf
    subst hf
    decide

/-- Witness of C5: `CollectEvidence "hipaa"` posts the body
`{"framework":"hipaa"}` and `CollectEvidence ""` the body
`{"framework":"soc2"}`. -/
theorem collectEvidence_request_witness :
    (exampleClient.CollectEvidence (mockServer 200 []) (goStr "hipaa") emptyWorld).2.sent
      = [exampleRequest (goStr "POST") (goStr "/api/services/compliance/collect_evidence/")
          (some (goStr "\x7b\"framework\":"
            ++ appendString (if goStr "hipaa" = [] then goStr "soc2" else goStr "hipaa")
            ++ goStr "\x7d"))] ∧
    goStr "\x7b\"framework\":"
        ++ appendString (if goStr "hipaa" = [] then goStr "soc2" else goStr "hipaa")
        ++ goStr "\x7d"
      = goStr "\x7b\"framework\":\"hipaa\"\x7d" ∧
    goStr "\x7b\"framework\":"
        ++ appendString (if ([] : GoString) = [] then goStr "soc2" else []) ++ goStr "\x7d"
      = goStr "\x7b\"framework\":\"soc2\"\x7d" :=
  ⟨(collectEvidence_request (mockServer 200 []) exampleClient (goStr "hipaa")
      emptyWorld).2.2.2.1 rfl,
   (collectEvidence_request (mockServer 200 []) exampleClient (goStr "hipaa")
      emptyWorld).2.2.2.2.1 rfl,
   (collectEvidence_request (mockServer 200 []) exampleClient []
      emptyWorld).2.2.2.2.2 rfl⟩

/-- C6: `GraphQL q nil` is the call of `do` with method POST, the path
`/api/graphql/` and the payload with the two keys `query`, mapped to `q`, and
`variables`, mapped to an empty map and not to nil. Any request it sends is a
POST to the base URL followed by that path whose body is the JSON text of that
payload, `query` first; the request is sent whenever `http.NewRequest` accepts
the URL. For the query `{ x }` the body is `{"query":"{ x }","variables":{}}`. -/
theorem graphQL_nil_request (env : Env) (c : Client) (query : GoString) (w : World) :
    c.GraphQL env query none w
      = c.do' env (goStr "POST") (goStr "/api/graphql/")
          (some (.map [(goStr "query", .str query), (goStr "variables", .map [])])) w ∧
    json.Marshal (.map [(goStr "query", .str query), (goStr "variables", .map [])])
      = .ok (goStr "\x7b\"query\":" ++ appendString query
          ++ goStr ",\"variables\":\x7b\x7d\x7d") ∧
    (∀ new req, (c.GraphQL env query none w).2.sent = w.sent ++ new → req ∈ new →
      req.Method = goStr "POST" ∧ req.URL = c.BaseURL ++ goStr "/api/graphql/" ∧
      req.Body = some (goStr "\x7b\"query\":" ++ appendString query
          ++ goStr ",\"variables\":\x7b\x7d\x7d")) ∧
    (env.newRequestError (goStr "POST") (c.BaseURL ++ goStr "/api/graphql/") = none →
      (c.GraphQL env query none w).2.sent
        = w.sent ++ [{ Method := goStr "POST",
                       URL := c.BaseURL ++ goStr "/api/graphql/",
                       Header := [(goStr "Content-Type", [goStr "application/json"]),
                                  (goStr "Authorization", [goStr "Token " ++ c.Token])],
                       Body := some (goStr "\x7b\"query\":" ++ appendString query
                         ++ goStr ",\"variables\":\x7b\x7d\x7d") }]) ∧
    (query = goStr "\x7b x \x7d" →
      goStr "\x7b\"query\":" ++ appendString query ++ goStr ",\"variables\":\x7b\x7d\x7d"
        = goStr "\x7b\"query\":\"\x7b x \x7d\",\"variables\":\x7b\x7d\x7d") := by
  have hm : marshalPayload (some (.map [(goStr "query", .str query),
        (goStr "variables", .map [])]))
      = .ok (some (goStr "\x7b\"query\":" ++ appendString query
          ++ goStr ",\"variables\":\x7b\x7d\x7d")) := by
    simp only [marshalPayload, marshal_query_empty]
  refine ⟨rfl, marshal_query_empty _, ?_, ?_, ?_⟩
  · intro new req hnew hmem
    have hnew' : (c.do' env http.MethodPost (goStr "/api/graphql/")
        (some (.map [(goStr "query", .str query), (goStr "variables", .map [])])) w).2.sent
        = w.sent ++ new := hnew
    obtain ⟨body, hb, _, _, hreq⟩ := do_new_request hnew' hmem
    rw [hm] at hb
    simp only [Except.ok.injEq] at hb
    subst hreq
    exact ⟨rfl, rfl, hb.symm⟩
  · intro hacc
    exact do_sent_of_accepted http.MethodPost _ hm hacc
  · intro hq
    subst hq
    decide

/-- Witness of C6: `GraphQL "{ x }" nil` posts the body
`{"query":"{ x }","variables":{}}`. -/
theorem graphQL_nil_request_witness :
    (exampleClient.GraphQL (mockServer 200 []) (goStr "\x7b x \x7d") none emptyWorld).2.sent
      = [exampleRequest (goStr "POST") (goStr "/api/graphql/")
          (some (goStr "\x7b\"query\":" ++ appendString (goStr "\x7b x \x7d")
            ++ goStr ",\"variables\":\x7b\x7d\x7d"))] ∧
    goStr "\x7b\"query\":" ++ appendString (goStr "\x7b x \x7d")
        ++ goStr ",\"variables\":\x7b\x7d\x7d"
      = goStr "\x7b\"query\":\"\x7b x \x7d\",\"variables\":\x7b\x7d\x7d" :=
  ⟨(graphQL_nil_request (mockServer 200 []) exampleClient (goStr "\x7b x \x7d")
      emptyWorld).2.2.2.1 rfl,
   (graphQL_nil_request (mockServer 200 []) exampleClient (goStr "\x7b x \x7d")
      emptyWorld).2.2.2.2 rfl⟩

/-- C10: for a map of variables `v` that is not nil, `GraphQL q v` is the call of
`do` with the payload mapping `query` to `q` and `variables` to `v` itself; the
JSON text of that payload holds the text of `v` as the encoder writes it, and it
is the body of any request sent. `GraphQL q nil` is the same call as `GraphQL q`
on the empty map. -/
theorem graphQL_payload (env : Env) (c : Client) (query : GoString)
    (v : List (GoString × GoValue)) (w : World) :
    c.GraphQL env query (some v) w
      = c.do' env (goStr "POST") (goStr "/api/graphql/")
          (some (.map [(goStr "query", .str query), (goStr "variables", .map v)])) w ∧
    c.GraphQL env query none w = c.GraphQL env query (some []) w ∧
    json.Marshal (.map [(goStr "query", .str query), (goStr "variables", .map v)])
      = (match json.Marshal (.map v) with
        | .error err => .error err
        | .ok vb => .ok (goStr "\x7b\"query\":" ++ appendString query
            ++ goStr ",\"variables\":" ++ vb ++ goStr "\x7d")) ∧
    (∀ new req, (c.GraphQL env query (some v) w).2.sent = w.sent ++ new → req ∈ new →
      ∃ vb, json.Marshal (.map v) = .ok vb ∧
        req.Body = some (goStr "\x7b\"query\":" ++ appendString query
          ++ goStr ",\"variables\":" ++ vb ++ goStr "\x7d")) := by
  refine ⟨rfl, rfl, marshal_query_vars query v, ?_⟩
  intro new req hnew hmem
  have hnew' : (c.do' env http.MethodPost (goStr "/api/graphql/")
      (some (.map [(goStr "query", .str query), (goStr "variables", .map v)])) w).2.sent
      = w.sent ++ new := hnew
  obtain ⟨body, hb, _, _, hreq⟩ := do_new_request hnew' hmem
  subst hreq
  simp only [marshalPayload, marshal_query_vars] at hb
  cases hv : json.Marshal (.map v) with
  | error err => simp [hv] at hb
  | ok vb =>
    simp only [hv, Except.ok.injEq] at hb
    exact ⟨vb, rfl, hb.symm⟩

/-- Witness of C10: with the variables `{"id": 7}` the body sent is
`{"query":"q","variables":{"id":7}}`. -/
theorem graphQL_payload_witness :
    ∃ vb, json.Marshal (.map [(goStr "id", .int 7)]) = .ok vb ∧
      (exampleRequest (goStr "POST") (goStr "/api/graphql/")
          (some (goStr "\x7b\"query\":\"q\",\"variables\":\x7b\"id\":7\x7d\x7d"))).Body
        = some (goStr "\x7b\"query\":" ++ appendString (goStr "q")
            ++ goStr ",\"variables\":" ++ vb ++ goStr "\x7d") :=
  (graphQL_payload (mockServer 200 []) exampleClient (goStr "q") [(goStr "id", .int 7)]
    emptyWorld).2.2.2
    [exampleRequest (goStr "POST") (goStr "/api/graphql/")
      (some (goStr "\x7b\"query\":\"q\",\"variables\":\x7b\"id\":7\x7d\x7d"))]
    (exampleRequest (goStr "POST") (goStr "/api/graphql/")
      (some (goStr "\x7b\"query\":\"q\",\"variables\":\x7b\"id\":7\x7d\x7d")))
    (by decide) (by simp)

/-! ## Failures -/

/-- C7: a failure of payload serialization, of request construction, of the
network exchange or of reading the response body makes `do` return no bytes and
that very error. After a failure of serialization or of request construction
nothing was sent; after a failure of the exchange no body was read or closed. -/
theorem failures_propagate (env : Env) (c : Client) (method path : GoString)
    (payload : Option GoValue) (w : World) :
    (∀ p err, payload = some p → json.Marshal p = .error err →
      c.do' env method path payload w = ((none, some err), w)) ∧
    (∀ body err, marshalPayload payload = .ok body →
      http.NewRequest env method (c.BaseURL ++ path) body = .error err →
      c.do' env method path payload w = ((none, some err), w)) ∧
    (∀ req err, (c.do' env method path payload w).2.sent = w.sent ++ [req] →
      env.roundTrip w.sent req = .error err →
      c.do' env method path payload w
        = ((none, some err), { sent := w.sent ++ [req], closedBodies := w.closedBodies })) ∧
    (∀ req res data err, (c.do' env method path payload w).2.sent = w.sent ++ [req] →
      env.roundTrip w.sent req = .ok res → io.ReadAll res = (data, some err) →
      (c.do' env method path payload w).1 = (none, some err)) := by
  refine ⟨?_, ?_, ?_, ?_⟩
  · intro p err hp hm
    subst hp
    apply do_of_marshal_error
    simp [marshalPayload, hm]
  · intro body err hm hr
    exact do_of_request_error hm hr
  · intro req err hsent hrt
    rcases do_cases env c method path payload w with
      ⟨e, _, h⟩ | ⟨b, e, _, _, h⟩ | ⟨b, rq, hm', hr⟩
    · rw [h] at hsent; simp at hsent
    · rw [h] at hsent; simp at hsent
    · rw [do_sent_of_request_ok hm' hr] at hsent
      have hreq := List.append_cancel_left hsent
      simp only [List.cons.injEq, and_true] at hreq
      rw [do_of_request_ok hm' hr, hreq, hrt]
  · intro req res data err hsent hrt hread
    rw [do_answered hsent hrt]
    simp only [io.ReadAll] at hread
    rw [hread]

/-- Witness of C7: a channel among the variables, a URL that is rejected, a
refused connection and a body cut short each surface as the error itself. -/
theorem failures_propagate_witness :
    exampleClient.do' (mockServer 200 []) (goStr "POST") (goStr "/api/graphql/")
        (some (.map [(goStr "c", .unsupported (goStr "chan int"))])) emptyWorld
      = ((none, some (.unsupportedType (goStr "chan int"))), emptyWorld) ∧
    exampleClient.do'
        (stubEnv (some (.foreign 1 (goStr "invalid URL"))) (.ok ⟨200, ([], none)⟩))
        (goStr "GET") (goStr "/x") none emptyWorld
      = ((none, some (.foreign 1 (goStr "invalid URL"))), emptyWorld) ∧
    exampleClient.do' (stubEnv none (.error (.foreign 2 (goStr "connection refused"))))
        (goStr "GET") (goStr "/x") none emptyWorld
      = ((none, some (.foreign 2 (goStr "connection refused"))),
         { sent := emptyWorld.sent ++ [exampleRequest (goStr "GET") (goStr "/x") none],
           closedBodies := emptyWorld.closedBodies }) ∧
    (exampleClient.do'
        (stubEnv none (.ok ⟨200, (goStr "par", some (.foreign 3 (goStr "unexpected EOF")))⟩))
        (goStr "GET") (goStr "/x") none emptyWorld).1
      = (none, some (.foreign 3 (goStr "unexpected EOF"))) :=
  ⟨(failures_propagate (mockServer 200 []) exampleClient (goStr "POST") (goStr "/api/graphql/")
      (some (.map [(goStr "c", .unsupported (goStr "chan int"))])) emptyWorld).1
      _ _ rfl rfl,
   (failures_propagate
      (stubEnv (some (.foreign 1 (goStr "invalid URL"))) (.ok ⟨200, ([], none)⟩))
      exampleClient (goStr "GET") (goStr "/x") none emptyWorld).2.1 none _ rfl rfl,
   (failures_propagate (stubEnv none (.error (.foreign 2 (goStr "connection refused"))))
      exampleClient (goStr "GET") (goStr "/x") none emptyWorld).2.2.1
      (exampleRequest (goStr "GET") (goStr "/x") none) _ (by decide) rfl,
   (failures_propagate
      (stubEnv none (.ok ⟨200, (goStr "par", some (.foreign 3 (goStr "unexpected EOF")))⟩))
      exampleClient (goStr "GET") (goStr "/x") none emptyWorld).2.2.2
      (exampleRequest (goStr "GET") (goStr "/x") none) _ (goStr "par") _ (by decide) rfl rfl⟩

/-! ## One network call -/

/-- C9: a call of `do`, and so of each public operation, hands at most one
request to the network. `do` hands over exactly one when the payload serializes
and `http.NewRequest` accepts the method and URL, and none otherwise; this does
not depend on what the network answers, so a failed exchange or a status code
of 400 or more is not followed by a second request. -/
theorem one_network_call (env : Env) (c : Client) (method path : GoString)
    (payload : Option GoValue) (framework query : GoString)
    (vars : Option (List (GoString × GoValue))) (op : World → Result × World)
    (hop : op ∈ [c.do' env method path payload, c.ListInstances env,
      c.ComplianceControls env framework, c.CollectEvidence env framework,
      c.GraphQL env query vars])
    (w : World) :
    (∃ new, (op w).2.sent = w.sent ++ new ∧ new.length ≤ 1) ∧
    ((∃ body req, marshalPayload payload = .ok body ∧
        http.NewRequest env method (c.BaseURL ++ path) body = .ok req) →
      ∃ req, (c.do' env method path payload w).2.sent = w.sent ++ [req]) ∧
    ((¬ ∃ body req, marshalPayload payload = .ok body ∧
        http.NewRequest env method (c.BaseURL ++ path) body = .ok req) →
      (c.do' env method path payload w).2.sent = w.sent) := by
  refine ⟨?_, ?_, ?_⟩
  · obtain ⟨m, p, pl, rfl⟩ := op_is_do hop
    rcases do_cases env c m p pl w with ⟨e, _, h⟩ | ⟨b, e, _, _, h⟩ | ⟨b, rq, hm, hr⟩
    · exact ⟨[], by rw [h]; simp, by simp⟩
    · exact ⟨[], by rw [h]; simp, by simp⟩
    · exact ⟨_, do_sent_of_request_ok hm hr, by simp⟩
  · rintro ⟨body, req, hm, hr⟩
    exact ⟨_, do_sent_of_request_ok hm hr⟩
  · intro hno
    rcases do_cases env c method path payload w with
      ⟨e, _, h⟩ | ⟨b, e, _, _, h⟩ | ⟨b, rq, hm, hr⟩
    · rw [h]
    · rw [h]
    · exact absurd ⟨b, rq, hm, hr⟩ hno

/-- Witness of C9: on a network that refuses the first request and would answer
a second one, `ListInstances` sends one request and returns the refusal; against
a server answering 500 it sends one request; with a payload that does not
serialize `do` sends none. -/
theorem one_network_call_witness :
    (∃ new, (exampleClient.ListInstances flakyEnv emptyWorld).2.sent = emptyWorld.sent ++ new ∧
      new.length ≤ 1) ∧
    (∃ req, (exampleClient.do' (mockServer 500 (goStr "boom")) (goStr "GET") (goStr "/x") none
      emptyWorld).2.sent = emptyWorld.sent ++ [req]) ∧
    (exampleClient.do' (mockServer 200 []) (goStr "POST") (goStr "/x")
      (some (.unsupported (goStr "func()"))) emptyWorld).2.sent = emptyWorld.sent :=
  ⟨(one_network_call flakyEnv exampleClient [] [] none [] [] none
      (exampleClient.ListInstances flakyEnv) (by simp) emptyWorld).1,
   (one_network_call (mockServer 500 (goStr "boom")) exampleClient (goStr "GET") (goStr "/x")
      none [] [] none (exampleClient.ListInstances (mockServer 500 (goStr "boom"))) (by simp)
      emptyWorld).2.1 ⟨none, _, rfl, rfl⟩,
   (one_network_call (mockServer 200 []) exampleClient (goStr "POST") (goStr "/x")
      (some (.unsupported (goStr "func()"))) [] [] none
      (exampleClient.ListInstances (mockServer 200 [])) (by simp) emptyWorld).2.2
      (by rintro ⟨body, req, hm, _⟩; simp [marshalPayload, json.Marshal, encodeValue] at hm)⟩

end Atonixsdk
